import Mathlib

/-!
Verification of the TranspileAI python server core (src/python/server.py and
src/examples/simple_math/impl.py): the method registry, session store and
dispatcher, shallowly embedded in Lean.

The wire serialization (python's external json module) is modelled at token
level: a self-describing token stream carrying primitives, sequences and
string-keyed mappings, mirroring the JSON-compatible encoding the server uses
for arguments, results and state.
-/

namespace TranspileAI

/-- Tokens of the serialized value form.  `lbrace`/`rbrace` delimit mappings
(the analogue of a JSON object), `lbrack`/`rbrack` delimit sequences, and
`tkey` carries a mapping key.  Modelled from the spec: the encoding is a
self-describing structured value format carrying primitives, ordered
sequences, and string-keyed mappings (the reference uses the external json
module, which is out of scope of the repository). -/
inductive JTok where
  | lbrace
  | rbrace
  | lbrack
  | rbrack
  | tkey (k : String)
  | tnull
  | tbool (b : Bool)
  | tnum (n : Int)
  | tstr (s : String)
deriving DecidableEq, Repr

/-- Runtime values held in argument mappings, results and session state.
`obj s` stands for a python object with no direct serialized representation,
whose str() form is `s` (the json dumps default=str fallback applies to it). -/
inductive PyVal where
  | null
  | boolean (b : Bool)
  | num (n : Int)
  | str (s : String)
  | list (xs : List PyVal)
  | dict (kvs : List (String × PyVal))
  | obj (s : String)

mutual

/-- Serialization of a value to the token form, mirroring json.dumps with
default=str: an unserializable object falls back to its string form. -/
def serializePy : PyVal → List JTok
  | .null => [.tnull]
  | .boolean b => [.tbool b]
  | .num n => [.tnum n]
  | .str s => [.tstr s]
  | .list xs => .lbrack :: (serializeListPy xs ++ [.rbrack])
  | .dict kvs => .lbrace :: (serializeDictPy kvs ++ [.rbrace])
  | .obj s => [.tstr s]

/-- Serialization of the elements of a sequence. -/
def serializeListPy : List PyVal → List JTok
  | [] => []
  | v :: vs => serializePy v ++ serializeListPy vs

/-- Serialization of the entries of a mapping. -/
def serializeDictPy : List (String × PyVal) → List JTok
  | [] => []
  | (k, v) :: kvs => .tkey k :: (serializePy v ++ serializeDictPy kvs)

end

mutual

/-- Recursive-descent parser for one value, with explicit fuel. -/
def parseVal : Nat → List JTok → Except String (PyVal × List JTok)
  | 0, _ => .error "Max recursion depth exceeded"
  | _ + 1, [] => .error "Expecting value: end of input"
  | fuel + 1, t :: ts =>
    match t with
    | .tnull => .ok (.null, ts)
    | .tbool b => .ok (.boolean b, ts)
    | .tnum n => .ok (.num n, ts)
    | .tstr s => .ok (.str s, ts)
    | .lbrack =>
      match parseListItems fuel ts with
      | .ok (xs, r) => .ok (.list xs, r)
      | .error e => .error e
    | .lbrace =>
      match parseDictItems fuel ts with
      | .ok (kvs, r) => .ok (.dict kvs, r)
      | .error e => .error e
    | _ => .error "Expecting value"

/-- Parser for the elements of a sequence up to its closing bracket. -/
def parseListItems : Nat → List JTok → Except String (List PyVal × List JTok)
  | 0, _ => .error "Max recursion depth exceeded"
  | _ + 1, [] => .error "Unterminated array: end of input"
  | fuel + 1, t :: ts =>
    match t with
    | .rbrack => .ok ([], ts)
    | _ =>
      match parseVal fuel (t :: ts) with
      | .error e => .error e
      | .ok (v, r) =>
        match parseListItems fuel r with
        | .error e => .error e
        | .ok (vs, r2) => .ok (v :: vs, r2)

/-- Parser for the entries of a mapping up to its closing brace. -/
def parseDictItems : Nat → List JTok → Except String (List (String × PyVal) × List JTok)
  | 0, _ => .error "Max recursion depth exceeded"
  | _ + 1, [] => .error "Expecting property name: end of input"
  | fuel + 1, t :: ts =>
    match t with
    | .rbrace => .ok ([], ts)
    | .tkey k =>
      match parseVal fuel ts with
      | .error e => .error e
      | .ok (v, r) =>
        match parseDictItems fuel r with
        | .error e => .error e
        | .ok (kvs, r2) => .ok ((k, v) :: kvs, r2)
    | _ => .error "Expecting property name"

end

/-- Deserialization of a full payload: parse one value and require that the
whole token stream is consumed, as json.loads does. -/
def parseTokens (toks : List JTok) : Except String PyVal :=
  match parseVal (toks.length + 1) toks with
  | .error e => .error e
  | .ok (v, []) => .ok v
  | .ok (_, _ :: _) => .error "Extra data"

mutual

/-- True when a value is built only from null, booleans, numbers, strings,
sequences and string-keyed mappings (no fallback-serialized object). -/
def PyVal.jsonOnly : PyVal → Bool
  | .null => true
  | .boolean _ => true
  | .num _ => true
  | .str _ => true
  | .list xs => jsonOnlyList xs
  | .dict kvs => jsonOnlyDict kvs
  | .obj _ => false

/-- jsonOnly on every element of a sequence. -/
def jsonOnlyList : List PyVal → Bool
  | [] => true
  | v :: vs => v.jsonOnly && jsonOnlyList vs

/-- jsonOnly on every value of a mapping. -/
def jsonOnlyDict : List (String × PyVal) → Bool
  | [] => true
  | (_, v) :: kvs => v.jsonOnly && jsonOnlyDict kvs

end

/-- Tokens that may begin a serialized value (everything except closers and
mapping keys). -/
def JTok.starter : JTok → Bool
  | .rbrack => false
  | .rbrace => false
  | .tkey _ => false
  | _ => true

theorem serializePy_length_pos (v : PyVal) : 1 ≤ (serializePy v).length := by
  cases v <;> simp [serializePy]

theorem serializePy_head (v : PyVal) :
    ∃ t ts, serializePy v = t :: ts ∧ t.starter = true := by
  cases v <;> simp [serializePy, JTok.starter]

theorem parseListItems_cons_starter (fuel : Nat) (t : JTok) (ts : List JTok)
    (h : t.starter = true) :
    parseListItems (fuel + 1) (t :: ts) =
      match parseVal fuel (t :: ts) with
      | .error e => .error e
      | .ok (v, r) =>
        match parseListItems fuel r with
        | .error e => .error e
        | .ok (vs, r2) => .ok (v :: vs, r2) := by
  cases t <;> simp_all [parseListItems, JTok.starter]

theorem roundTrip (fuel : Nat) :
    (∀ v rest, PyVal.jsonOnly v = true → (serializePy v).length ≤ fuel →
      parseVal fuel (serializePy v ++ rest) = .ok (v, rest))
    ∧ (∀ xs rest, jsonOnlyList xs = true → (serializeListPy xs).length + 1 ≤ fuel →
      parseListItems fuel (serializeListPy xs ++ .rbrack :: rest) = .ok (xs, rest))
    ∧ (∀ kvs rest, jsonOnlyDict kvs = true → (serializeDictPy kvs).length + 1 ≤ fuel →
      parseDictItems fuel (serializeDictPy kvs ++ .rbrace :: rest) = .ok (kvs, rest)) := by
  induction fuel with
  | zero =>
    refine ⟨fun v rest _ hlen => ?_, fun xs rest _ hlen => ?_, fun kvs rest _ hlen => ?_⟩
    · exact absurd hlen (by have := serializePy_length_pos v; omega)
    · omega
    · omega
  | succ fuel ih =>
    obtain ⟨ihV, ihL, ihD⟩ := ih
    refine ⟨fun v rest hj hlen => ?_, fun xs rest hj hlen => ?_, fun kvs rest hj hlen => ?_⟩
    · cases v with
      | null => simp [serializePy, parseVal]
      | boolean b => simp [serializePy, parseVal]
      | num n => simp [serializePy, parseVal]
      | str s => simp [serializePy, parseVal]
      | obj s => simp [PyVal.jsonOnly] at hj
      | list xs =>
        have hj' : jsonOnlyList xs = true := by simpa [PyVal.jsonOnly] using hj
        have hlen' : (serializeListPy xs).length + 1 ≤ fuel := by
          simp [serializePy] at hlen; omega
        have hq := ihL xs rest hj' hlen'
        simp [serializePy, parseVal, List.append_assoc]
        rw [hq]
      | dict kvs =>
        have hj' : jsonOnlyDict kvs = true := by simpa [PyVal.jsonOnly] using hj
        have hlen' : (serializeDictPy kvs).length + 1 ≤ fuel := by
          simp [serializePy] at hlen; omega
        have hq := ihD kvs rest hj' hlen'
        simp [serializePy, parseVal, List.append_assoc]
        rw [hq]
    · cases xs with
      | nil => simp [serializeListPy, parseListItems]
      | cons v vs =>
        have hjv : PyVal.jsonOnly v = true ∧ jsonOnlyList vs = true := by
          simpa [jsonOnlyList, Bool.and_eq_true] using hj
        have hvpos := serializePy_length_pos v
        have hlv : (serializePy v).length ≤ fuel := by
          simp [serializeListPy] at hlen; omega
        have hls : (serializeListPy vs).length + 1 ≤ fuel := by
          simp [serializeListPy] at hlen; omega
        obtain ⟨t, ts, hv, hst⟩ := serializePy_head v
        have hstream : serializeListPy (v :: vs) ++ .rbrack :: rest
            = t :: (ts ++ (serializeListPy vs ++ .rbrack :: rest)) := by
          simp [serializeListPy, hv]
        rw [hstream, parseListItems_cons_starter fuel t _ hst]
        have hpv : parseVal fuel (t :: (ts ++ (serializeListPy vs ++ .rbrack :: rest)))
            = .ok (v, serializeListPy vs ++ .rbrack :: rest) := by
          have := ihV v (serializeListPy vs ++ .rbrack :: rest) hjv.1 hlv
          rw [hv] at this
          simpa using this
        rw [hpv]
        simp only [ihL vs rest hjv.2 hls]
    · cases kvs with
      | nil => simp [serializeDictPy, parseDictItems]
      | cons kv kvs' =>
        obtain ⟨k, v⟩ := kv
        have hjv : PyVal.jsonOnly v = true ∧ jsonOnlyDict kvs' = true := by
          simpa [jsonOnlyDict, Bool.and_eq_true] using hj
        have hvpos := serializePy_length_pos v
        have hlv : (serializePy v).length ≤ fuel := by
          simp [serializeDictPy] at hlen; omega
        have hls : (serializeDictPy kvs').length + 1 ≤ fuel := by
          simp [serializeDictPy] at hlen; omega
        have hstream : serializeDictPy ((k, v) :: kvs') ++ .rbrace :: rest
            = .tkey k :: (serializePy v ++ (serializeDictPy kvs' ++ .rbrace :: rest)) := by
          simp [serializeDictPy]
        rw [hstream]
        simp only [parseDictItems]
        rw [ihV v (serializeDictPy kvs' ++ .rbrace :: rest) hjv.1 hlv]
        simp only [ihD kvs' rest hjv.2 hls]

/-- Serialize-then-deserialize is the identity on values built from the
supported forms. -/
theorem parse_serializePy (v : PyVal) (h : v.jsonOnly = true) :
    parseTokens (serializePy v) = .ok v := by
  unfold parseTokens
  have hrt := (roundTrip ((serializePy v).length + 1)).1 v [] h (by omega)
  rw [List.append_nil] at hrt
  rw [hrt]

/-! Insertion-ordered string-keyed dictionaries, modelling python dicts:
lookup finds the first matching key, assignment overwrites in place keeping
the original position (or appends a new entry at the end), and deletion
removes the entry.  All server maps (methods, metadata, contexts, state) use
this representation. -/

namespace SDict

/-- Dictionary lookup (python `d[k]` / `k in d`). -/
def get? {α : Type} : List (String × α) → String → Option α
  | [], _ => none
  | (k, v) :: rest, key => if k = key then some v else get? rest key

/-- Dictionary assignment (python `d[k] = v`): overwrite in place or append. -/
def set {α : Type} : List (String × α) → String → α → List (String × α)
  | [], key, val => [(key, val)]
  | (k, v) :: rest, key, val =>
    if k = key then (k, val) :: rest else (k, v) :: set rest key val

/-- Dictionary deletion (python `del d[k]`): drop the first matching entry. -/
def erase {α : Type} : List (String × α) → String → List (String × α)
  | [], _ => []
  | (k, v) :: rest, key => if k = key then rest else (k, v) :: erase rest key

theorem get?_set_self {α : Type} (l : List (String × α)) (k : String) (v : α) :
    get? (set l k v) k = some v := by
  induction l with
  | nil => simp [get?, set]
  | cons hd tl ih =>
    obtain ⟨k1, v1⟩ := hd
    by_cases h : k1 = k <;> simp [get?, set, h, ih]

theorem get?_set_ne {α : Type} (l : List (String × α)) (k k' : String) (v : α)
    (h : k' ≠ k) : get? (set l k v) k' = get? l k' := by
  induction l with
  | nil => simp [get?, set, Ne.symm h]
  | cons hd tl ih =>
    obtain ⟨k1, v1⟩ := hd
    by_cases h1 : k1 = k
    · subst h1
      simp [get?, set, Ne.symm h]
    · simp [get?, set, h1, ih]

theorem get?_erase_ne {α : Type} (l : List (String × α)) (k k' : String)
    (h : k' ≠ k) : get? (erase l k) k' = get? l k' := by
  induction l with
  | nil => simp [erase]
  | cons hd tl ih =>
    obtain ⟨k1, v1⟩ := hd
    by_cases h1 : k1 = k
    · subst h1
      simp [get?, erase, Ne.symm h]
    · simp [get?, erase, h1, ih]

theorem get?_eq_none_of_not_mem {α : Type} (l : List (String × α)) (k : String)
    (h : k ∉ l.map Prod.fst) : get? l k = none := by
  induction l with
  | nil => simp [get?]
  | cons hd tl ih =>
    obtain ⟨k1, v1⟩ := hd
    simp only [List.map_cons, List.mem_cons] at h
    push_neg at h
    simp [get?, Ne.symm h.1, ih h.2]

theorem get?_erase_self {α : Type} (l : List (String × α)) (k : String)
    (h : (l.map Prod.fst).Nodup) : get? (erase l k) k = none := by
  induction l with
  | nil => simp [erase, get?]
  | cons hd tl ih =>
    obtain ⟨k1, v1⟩ := hd
    simp only [List.map_cons, List.nodup_cons] at h
    by_cases h1 : k1 = k
    · subst h1
      simp [erase, get?_eq_none_of_not_mem tl _ h.1]
    · simp [erase, get?, h1, ih h.2]

end SDict

/-! The server model, translated from src/python/server.py. -/

/-- An execution context: an id plus a state slot.  The state slot holds an
arbitrary value because CreateContext stores whatever json.loads returns for
the supplied initial_state, a mapping or not (server.py line 43). -/
structure ExecutionContext where
  context_id : String
  state : PyVal

/-- ExecutionContext.__init__ (server.py lines 38-45): an absent or empty
initial_state (python falsiness of the empty string) leaves the state empty;
a payload that fails to parse only logs a warning and leaves the state empty;
a payload that parses is stored as the state, whatever its shape. -/
def ExecutionContext.init (cid : String) (initial_state : List JTok) : ExecutionContext :=
  if initial_state.isEmpty then ⟨cid, .dict []⟩
  else
    match parseTokens initial_state with
    | .ok v => ⟨cid, v⟩
    | .error _ => ⟨cid, .dict []⟩

/-- ExecutionContext.get_state (server.py lines 47-48). -/
def ExecutionContext.get_state (c : ExecutionContext) : List JTok :=
  serializePy c.state

/-- ExecutionContext.update_state (server.py lines 50-51); only ever reached
with a mapping state by the registered callables. -/
def ExecutionContext.update_state (c : ExecutionContext) (k : String) (v : PyVal) :
    ExecutionContext :=
  match c.state with
  | .dict kvs => { c with state := .dict (SDict.set kvs k v) }
  | st => { c with state := st }

/-- Registration metadata (server.py lines 74-79). -/
structure Metadata where
  description : String
  is_stateful : Bool
  parameter_types : List String
  return_type : String
deriving DecidableEq, Repr

/-- A registered callable.  It receives the context the dispatcher chose to
pass (none models a call without the implicit first argument) and the keyword
arguments, and produces the call outcome together with the possibly mutated
context (python mutates the passed context in place, so the second component
is some exactly when a context was passed). -/
def PyCallable : Type :=
  Option ExecutionContext → List (String × PyVal) →
    Except String PyVal × Option ExecutionContext

/-- The whole service state (server.py lines 57-60). -/
structure Server where
  contexts : List (String × ExecutionContext)
  methods : List (String × PyCallable)
  method_metadata : List (String × Metadata)

/-- register_function (server.py lines 63-80). -/
def Server.register_function (s : Server) (name : String) (func : PyCallable)
    (description : String) (is_stateful : Bool) (parameter_types : List String)
    (return_type : String) : Server :=
  { s with
    methods := SDict.set s.methods name func
    method_metadata :=
      SDict.set s.method_metadata name ⟨description, is_stateful, parameter_types, return_type⟩ }

/-- An invocation request (method_name, optional context_id, serialized
arguments); the empty string / empty payload stand for the absent proto
fields. -/
structure InvokeRequest where
  method_name : String
  context_id : String
  arguments : List JTok

/-- Execution metadata attached to successful invocations (server.py lines
165-169).  Wall-clock timing is outside the embedding, so the model always
reports zero microseconds; the claims only constrain presence and runtime. -/
structure ExecutionMetadata where
  execution_time_us : Nat
  memory_bytes : Nat
  runtime : String
deriving DecidableEq, Repr

/-- InvokeMethodResponse: result is empty and metadata absent on failure. -/
structure InvokeMethodResponse where
  success : Bool
  result : List JTok
  error : String
  metadata : Option ExecutionMetadata
deriving DecidableEq, Repr

structure CreateContextResponse where
  context_id : String
  success : Bool
  error : String
deriving DecidableEq, Repr

structure InspectStateResponse where
  success : Bool
  state : List JTok
  error : String
deriving DecidableEq, Repr

structure DestroyContextResponse where
  success : Bool
  error : String
deriving DecidableEq, Repr

structure MethodInfo where
  name : String
  description : String
  is_stateful : Bool
  parameter_types : List String
  return_type : String
deriving DecidableEq, Repr

structure ListMethodsResponse where
  methods : List MethodInfo
deriving DecidableEq, Repr

/-- Argument deserialization (server.py line 136): an absent payload is the
empty mapping, anything else goes through json.loads. -/
def parsedArguments (req : InvokeRequest) : Except String PyVal :=
  if req.arguments.isEmpty then .ok (.dict [])
  else parseTokens req.arguments

/-- Session resolution (server.py lines 143-149): an empty context_id means
no session; a non-empty one must name a live context. -/
def Server.resolveContext (s : Server) (req : InvokeRequest) :
    Except String (Option ExecutionContext) :=
  if req.context_id = "" then .ok none
  else
    match SDict.get? s.contexts req.context_id with
    | none => .error ("Context not found: " ++ req.context_id)
    | some c => .ok (some c)

/-- Calling-convention selection (server.py line 152): the metadata is
consulted only when a session was resolved (python `and` short-circuits), and
the context is passed exactly when the method is stateful.  A missing
metadata entry surfaces as a KeyError caught by the outer handler. -/
def Server.callTarget (s : Server) (name : String) (octx : Option ExecutionContext) :
    Except String (Option ExecutionContext) :=
  match octx with
  | none => .ok none
  | some c =>
    match SDict.get? s.method_metadata name with
    | none => .error ("KeyError: " ++ name)
    | some md => .ok (if md.is_stateful then some c else none)

/-- Keyword expansion `func(**args)`: python raises a TypeError when the
deserialized arguments are not a mapping. -/
def asKwargs : PyVal → Except String (List (String × PyVal))
  | .dict kvs => .ok kvs
  | _ => .error "argument after ** must be a mapping"

/-- The tail of InvokeMethod (server.py lines 152-180): run the callable,
commit the mutated context, and build the response envelope; a failure
raised by the callable is caught and reported with no metadata. -/
def Server.finishCall (s : Server) (req : InvokeRequest)
    (passCtx : Option ExecutionContext) (f : PyCallable)
    (kw : List (String × PyVal)) : InvokeMethodResponse × Server :=
  let r := f passCtx kw
  let s2 : Server :=
    match passCtx, r.2 with
    | some _, some c2 => { s with contexts := SDict.set s.contexts req.context_id c2 }
    | _, _ => s
  match r.1 with
  | .error e => (⟨false, [], e, none⟩, s2)
  | .ok v => (⟨true, serializePy v, "", some ⟨0, 0, "python"⟩⟩, s2)

/-- InvokeMethod (server.py lines 120-180). -/
def Server.invokeMethod (s : Server) (req : InvokeRequest) :
    InvokeMethodResponse × Server :=
  match SDict.get? s.methods req.method_name with
  | none => (⟨false, [], "Method not found: " ++ req.method_name, none⟩, s)
  | some f =>
    match parsedArguments req with
    | .error e => (⟨false, [], "Invalid JSON arguments: " ++ e, none⟩, s)
    | .ok av =>
      match s.resolveContext req with
      | .error e => (⟨false, [], e, none⟩, s)
      | .ok octx =>
        match s.callTarget req.method_name octx with
        | .error e => (⟨false, [], e, none⟩, s)
        | .ok passCtx =>
          match asKwargs av with
          | .error e => (⟨false, [], e, none⟩, s)
          | .ok kw => s.finishCall req passCtx f kw

/-- CreateContext (server.py lines 109-118); the fresh uuid is a parameter of
the model. -/
def Server.createContext (s : Server) (initial_state : List JTok) (fresh : String) :
    CreateContextResponse × Server :=
  let c := ExecutionContext.init fresh initial_state
  (⟨fresh, true, ""⟩, { s with contexts := SDict.set s.contexts fresh c })

/-- InspectState (server.py lines 182-192). -/
def Server.inspectState (s : Server) (cid : String) : InspectStateResponse × Server :=
  match SDict.get? s.contexts cid with
  | none => (⟨false, [], "Context not found: " ++ cid⟩, s)
  | some c => (⟨true, c.get_state, ""⟩, s)

/-- DestroyContext (server.py lines 194-203). -/
def Server.destroyContext (s : Server) (cid : String) : DestroyContextResponse × Server :=
  match SDict.get? s.contexts cid with
  | some _ => (⟨true, ""⟩, { s with contexts := SDict.erase s.contexts cid })
  | none => (⟨false, "Context not found: " ++ cid⟩, s)

/-- The body of the ListMethods loop (server.py lines 207-219): walk the
metadata in insertion order, skipping entries that miss a non-empty filter. -/
def listLoop : List (String × Metadata) → String → List MethodInfo
  | [], _ => []
  | (n, md) :: rest, pfx =>
    if pfx ≠ "" ∧ ¬ n.startsWith pfx then listLoop rest pfx
    else ⟨n, md.description, md.is_stateful, md.parameter_types, md.return_type⟩ :: listLoop rest pfx

/-- ListMethods (server.py lines 205-221): a pure read, the server is
returned untouched. -/
def Server.listMethods (s : Server) (pfx : String) : ListMethodsResponse × Server :=
  (⟨listLoop s.method_metadata pfx⟩, s)

/-! The example callables of src/examples/simple_math/impl.py that the claims
exercise.  Every function in that module takes `context` as an explicit first
parameter, so a call without it raises a TypeError, which the dispatcher
catches like any other callable failure. -/

/-- Python + on the value forms the fixtures can meet. -/
def pyAdd : PyVal → PyVal → Except String PyVal
  | .num a, .num b => .ok (.num (a + b))
  | .boolean a, .num b => .ok (.num ((if a then 1 else 0) + b))
  | .num a, .boolean b => .ok (.num (a + (if b then 1 else 0)))
  | .boolean a, .boolean b => .ok (.num ((if a then 1 else 0) + (if b then 1 else 0)))
  | .str a, .str b => .ok (.str (a ++ b))
  | .list a, .list b => .ok (.list (a ++ b))
  | _, _ => .error "unsupported operand type for +"

/-- add (impl.py lines 20-22): `def add(context, a, b): return a + b`. -/
def add_impl : PyCallable := fun octx kw =>
  match octx with
  | none => (.error "add() missing 1 required positional argument: context", none)
  | some c =>
    match SDict.get? kw "a", SDict.get? kw "b" with
    | some a, some b => (pyAdd a b, some c)
    | _, _ => (.error "add() missing required positional arguments", some c)

/-- counter_increment (impl.py lines 62-67): read state.get("counter", 0),
add one, store it back, return it. -/
def counter_increment_impl : PyCallable := fun octx kw =>
  match octx with
  | none => (.error "counter_increment() missing 1 required positional argument: context", none)
  | some c =>
    if kw.isEmpty then
      match c.state with
      | .dict kvs =>
        let current := (SDict.get? kvs "counter").getD (.num 0)
        match pyAdd current (.num 1) with
        | .ok nv => (.ok nv, some (c.update_state "counter" nv))
        | .error e => (.error e, some c)
      | _ => (.error "state object has no attribute get", some c)
    else (.error "counter_increment() got an unexpected keyword argument", some c)

/-- counter_get (impl.py lines 77-79): return state.get("counter", 0). -/
def counter_get_impl : PyCallable := fun octx kw =>
  match octx with
  | none => (.error "counter_get() missing 1 required positional argument: context", none)
  | some c =>
    if kw.isEmpty then
      match c.state with
      | .dict kvs => (.ok ((SDict.get? kvs "counter").getD (.num 0)), some c)
      | _ => (.error "state object has no attribute get", some c)
    else (.error "counter_get() got an unexpected keyword argument", some c)

/-- A server loaded with the example module, as `serve` builds it (metadata
strings as in the impl.py decorators). -/
def demoServer : Server :=
  (((Server.mk [] [] []).register_function "add" add_impl
      "Add two numbers" false ["int", "int"] "int").register_function
    "counter_increment" counter_increment_impl
      "Increment a counter (stateful)" true [] "int").register_function
    "counter_get" counter_get_impl
      "Get current counter value (stateful)" true [] "int"

/-- The demo server after CreateContext with no initial state returned a
fresh context id. -/
def demoServerC : Server := (demoServer.createContext [] "ctx-1").2

/-! Claims. -/

/-- C1: invoking an unregistered method name yields success=false with a
MethodNotFound-class message and no execution metadata, for every arguments
payload and every context_id, with the server left untouched: method
resolution is settled before argument deserialization and before session
resolution. -/
theorem claim_C1 (s : Server) (req : InvokeRequest)
    (h : SDict.get? s.methods req.method_name = none) :
    s.invokeMethod req
      = (⟨false, [], "Method not found: " ++ req.method_name, none⟩, s) := by
  simp [Server.invokeMethod, h]

theorem claim_C1_witness :
    demoServerC.invokeMethod ⟨"nope", "bogus-context", [.lbrace]⟩
      = (⟨false, [], "Method not found: nope", none⟩, demoServerC) :=
  claim_C1 demoServerC ⟨"nope", "bogus-context", [.lbrace]⟩ rfl

/-- C10: whenever InvokeMethod fails before execution (unregistered method,
malformed arguments, or unknown context id), the whole server state — every
session included — is exactly what it was before the request, the response
has success=false and carries no execution metadata. -/
theorem claim_C10 (s : Server) (req : InvokeRequest)
    (h : SDict.get? s.methods req.method_name = none
      ∨ (∃ e, parsedArguments req = .error e)
      ∨ (req.context_id ≠ "" ∧ SDict.get? s.contexts req.context_id = none)) :
    (s.invokeMethod req).2 = s ∧ (s.invokeMethod req).1.success = false
      ∧ (s.invokeMethod req).1.metadata = none := by
  rcases h with h | ⟨e, h⟩ | ⟨h1, h2⟩
  · simp [Server.invokeMethod, h]
  · cases hm : SDict.get? s.methods req.method_name with
    | none => simp [Server.invokeMethod, hm]
    | some f => simp [Server.invokeMethod, hm, h]
  · cases hm : SDict.get? s.methods req.method_name with
    | none => simp [Server.invokeMethod, hm]
    | some f =>
      cases ha : parsedArguments req with
      | error e => simp [Server.invokeMethod, hm, ha]
      | ok av => simp [Server.invokeMethod, hm, ha, Server.resolveContext, h1, h2]

theorem claim_C10_witness :
    (demoServerC.invokeMethod ⟨"add", "missing-ctx", []⟩).2 = demoServerC
      ∧ (demoServerC.invokeMethod ⟨"add", "missing-ctx", []⟩).1.success = false
      ∧ (demoServerC.invokeMethod ⟨"add", "missing-ctx", []⟩).1.metadata = none :=
  claim_C10 demoServerC ⟨"add", "missing-ctx", []⟩
    (Or.inr (Or.inr ⟨by decide, rfl⟩))

/-- C4: for a registered method, an absent arguments payload deserializes to
the empty mapping (never an error), while the truncated payload consisting of
a lone opening brace fails with an InvalidArguments-class error carrying the
parser's message, leaves the server untouched, and never reaches the
callable (the outcome is the same for every registered callable). -/
theorem claim_C4 (s : Server) (req : InvokeRequest) (f : PyCallable)
    (hf : SDict.get? s.methods req.method_name = some f) :
    (req.arguments = [] → parsedArguments req = .ok (.dict []))
    ∧ (req.arguments = [.lbrace] →
        s.invokeMethod req
          = (⟨false, [],
              "Invalid JSON arguments: Expecting property name: end of input",
              none⟩, s)) := by
  constructor
  · intro h
    simp [parsedArguments, h]
  · intro h
    have hlb : parseTokens [JTok.lbrace]
        = .error "Expecting property name: end of input" := rfl
    have hp : parsedArguments req = .error "Expecting property name: end of input" := by
      unfold parsedArguments
      rw [h, hlb]
      simp
    simp [Server.invokeMethod, hf, hp]

theorem claim_C4_witness :
    demoServerC.invokeMethod ⟨"add", "", [.lbrace]⟩
      = (⟨false, [],
          "Invalid JSON arguments: Expecting property name: end of input",
          none⟩, demoServerC) :=
  (claim_C4 demoServerC ⟨"add", "", [.lbrace]⟩ add_impl rfl).2 rfl

/-- C2: for a registered method whose arguments deserialized to a mapping,
the callable is invoked with the resolved session as implicit first argument
exactly when a session was resolved and the metadata is stateful, and with no
session in every other case; in particular with an absent context_id the call
proceeds with no session and, when the callable succeeds, the dispatcher
reports plain success — no dispatcher-generated error for a stateful method
without a session. -/
theorem claim_C2 (s : Server) (req : InvokeRequest) (f : PyCallable)
    (md : Metadata) (av : PyVal) (kw : List (String × PyVal))
    (hf : SDict.get? s.methods req.method_name = some f)
    (hmd : SDict.get? s.method_metadata req.method_name = some md)
    (hargs : parsedArguments req = .ok av)
    (hkw : asKwargs av = .ok kw) :
    (∀ c, req.context_id ≠ "" → SDict.get? s.contexts req.context_id = some c →
      s.invokeMethod req
        = s.finishCall req (if md.is_stateful then some c else none) f kw)
    ∧ (req.context_id = "" → s.invokeMethod req = s.finishCall req none f kw)
    ∧ (req.context_id = "" → ∀ v o2, f none kw = (.ok v, o2) →
        (s.invokeMethod req).1
          = ⟨true, serializePy v, "", some ⟨0, 0, "python"⟩⟩) := by
  refine ⟨fun c hne hc => ?_, fun h0 => ?_, fun h0 v o2 hcall => ?_⟩
  · simp [Server.invokeMethod, hf, hargs, Server.resolveContext, hne, hc,
      Server.callTarget, hmd, hkw]
  · simp [Server.invokeMethod, hf, hargs, Server.resolveContext, h0,
      Server.callTarget, hkw]
  · have hq : s.invokeMethod req = s.finishCall req none f kw := by
      simp [Server.invokeMethod, hf, hargs, Server.resolveContext, h0,
        Server.callTarget, hkw]
    rw [hq]
    simp [Server.finishCall, hcall]

theorem claim_C2_witness :
    demoServerC.invokeMethod ⟨"counter_increment", "ctx-1", []⟩
      = demoServerC.finishCall ⟨"counter_increment", "ctx-1", []⟩
          (some ⟨"ctx-1", .dict []⟩) counter_increment_impl [] :=
  (claim_C2 demoServerC ⟨"counter_increment", "ctx-1", []⟩
      counter_increment_impl ⟨"Increment a counter (stateful)", true, [], "int"⟩
      (.dict []) [] rfl rfl rfl rfl).1
    ⟨"ctx-1", .dict []⟩ (by decide) rfl

/-- C3: when the invoked callable itself raises, the dispatcher catches the
failure and answers a well-formed response with success=false, the raised
message forwarded verbatim as error and no execution metadata, while the
registry survives untouched so the server keeps serving later requests. -/
theorem claim_C3 (s : Server) (req : InvokeRequest) (f : PyCallable)
    (av : PyVal) (kw : List (String × PyVal))
    (octx passCtx : Option ExecutionContext) (msg : String)
    (hf : SDict.get? s.methods req.method_name = some f)
    (hargs : parsedArguments req = .ok av)
    (hres : s.resolveContext req = .ok octx)
    (hct : s.callTarget req.method_name octx = .ok passCtx)
    (hkw : asKwargs av = .ok kw)
    (herr : (f passCtx kw).1 = .error msg) :
    (s.invokeMethod req).1 = ⟨false, [], msg, none⟩
    ∧ (s.invokeMethod req).2.methods = s.methods
    ∧ (s.invokeMethod req).2.method_metadata = s.method_metadata := by
  have hinv : s.invokeMethod req = s.finishCall req passCtx f kw := by
    simp [Server.invokeMethod, hf, hargs, hres, hct, hkw]
  rw [hinv]
  cases hr : f passCtx kw with
  | mk out octx2 =>
    have hout : out = .error msg := by rw [hr] at herr; exact herr
    subst hout
    cases passCtx <;> cases octx2 <;> simp [Server.finishCall, hr]

theorem claim_C3_witness :
    (demoServerC.invokeMethod ⟨"add", "", []⟩).1
      = ⟨false, [], "add() missing 1 required positional argument: context", none⟩
    ∧ (demoServerC.invokeMethod ⟨"add", "", []⟩).2.methods = demoServerC.methods
    ∧ (demoServerC.invokeMethod ⟨"add", "", []⟩).2.method_metadata
        = demoServerC.method_metadata :=
  claim_C3 demoServerC ⟨"add", "", []⟩ add_impl (.dict []) [] none none
    "add() missing 1 required positional argument: context"
    rfl rfl rfl rfl rfl rfl

theorem startsWith_empty (s : String) : s.startsWith "" = true := by
  show (s.toSubstring.take 0 == "".toSubstring) = true
  simp [Substring.take, String.toSubstring, Substring.nextn, BEq.beq, Substring.beq,
    Substring.bsize, String.substrEq, String.substrEq.loop]

/-- The record built for one registry entry by ListMethods. -/
def toMethodInfo (e : String × Metadata) : MethodInfo :=
  ⟨e.1, e.2.description, e.2.is_stateful, e.2.parameter_types, e.2.return_type⟩

theorem listLoop_eq_filter (l : List (String × Metadata)) (pfx : String) :
    listLoop l pfx = (l.filter (fun e => e.1.startsWith pfx)).map toMethodInfo := by
  induction l with
  | nil => simp [listLoop]
  | cons hd tl ih =>
    obtain ⟨n, md⟩ := hd
    by_cases hp : pfx = ""
    · subst hp
      simp [listLoop, List.filter_cons, startsWith_empty, ih, toMethodInfo]
    · by_cases hs : n.startsWith pfx
      · simp [listLoop, List.filter_cons, hp, hs, ih, toMethodInfo]
      · simp [listLoop, List.filter_cons, hp, hs, ih, toMethodInfo]

/-- C8: ListMethods with the empty filter returns one record per registered
method; a non-empty filter returns exactly the registrations whose names
start with it; the output follows registration insertion order (its name
sequence is a sublist of the registry key sequence, and the empty-filter
output is the registry itself in order); and the call returns the server
untouched — a pure read. -/
theorem claim_C8 (s : Server) (pfx : String) :
    (s.listMethods pfx).1.methods
        = (s.method_metadata.filter (fun e => e.1.startsWith pfx)).map toMethodInfo
    ∧ (s.listMethods "").1.methods = s.method_metadata.map toMethodInfo
    ∧ ((s.listMethods pfx).1.methods.map MethodInfo.name).Sublist
        (s.method_metadata.map Prod.fst)
    ∧ (s.listMethods pfx).2 = s := by
  refine ⟨listLoop_eq_filter s.method_metadata pfx, ?_, ?_, rfl⟩
  · rw [show (s.listMethods "").1.methods = listLoop s.method_metadata "" from rfl,
      listLoop_eq_filter]
    have hall : s.method_metadata.filter (fun e => e.1.startsWith "") = s.method_metadata :=
      List.filter_eq_self.mpr (fun e _ => startsWith_empty e.1)
    rw [hall]
  · rw [show (s.listMethods pfx).1.methods = listLoop s.method_metadata pfx from rfl,
      listLoop_eq_filter]
    have h1 : ((s.method_metadata.filter (fun e => e.1.startsWith pfx)).map
        toMethodInfo).map MethodInfo.name
        = (s.method_metadata.filter (fun e => e.1.startsWith pfx)).map Prod.fst := by
      simp [toMethodInfo, List.map_map, Function.comp]
    rw [h1]
    exact (List.filter_sublist _).map Prod.fst

/-- C9: serializing then deserializing any value composed of numbers,
strings, booleans, null, ordered sequences and string-keyed mappings returns
the same value, and a value with no serialized representation falls back to
its string form instead of failing (serialization is total). -/
theorem claim_C9 (v : PyVal) (h : v.jsonOnly = true) :
    parseTokens (serializePy v) = .ok v
    ∧ serializePy (.obj "some repr") = [.tstr "some repr"] :=
  ⟨parse_serializePy v h, rfl⟩

theorem claim_C9_witness :
    parseTokens (serializePy (.dict [("a", .list [.num 1, .str "x", .null,
        .boolean true]), ("b", .dict [("c", .num (-2))])]))
      = .ok (.dict [("a", .list [.num 1, .str "x", .null, .boolean true]),
          ("b", .dict [("c", .num (-2))])]) :=
  (claim_C9 (.dict [("a", .list [.num 1, .str "x", .null, .boolean true]),
    ("b", .dict [("c", .num (-2))])]) rfl).1

/-- C5 counterexample: the payload serializing the sequence [1, 2] does not
deserialize into a mapping, yet CreateContext stores the parsed sequence as
the context state — the state is not the empty mapping the claim requires. -/
theorem claim_C5_counterexample :
    ((Server.mk [] [] []).createContext
        [.lbrack, .tnum 1, .tnum 2, .rbrack] "ctx-new").1.success = true
    ∧ parseTokens [.lbrack, .tnum 1, .tnum 2, .rbrack]
        = .ok (.list [.num 1, .num 2])
    ∧ SDict.get? ((Server.mk [] [] []).createContext
        [.lbrack, .tnum 1, .tnum 2, .rbrack] "ctx-new").2.contexts "ctx-new"
        = some ⟨"ctx-new", .list [.num 1, .num 2]⟩
    ∧ PyVal.list [.num 1, .num 2] ≠ .dict [] :=
  ⟨rfl, rfl, rfl, fun h => PyVal.noConfusion h⟩

/-- C5 amended: if the supplied initial_state fails to parse, the context is
still created successfully (success=true, fresh id returned) with the empty
mapping as state; a payload that parses to a non-mapping value is stored
as the state unchanged.  The parse failure is only logged, which is outside
the embedding; no error response is produced. -/
theorem claim_C5_amended (s : Server) (ini : List JTok) (fresh : String) :
    (∀ e, ini ≠ [] → parseTokens ini = .error e →
      (s.createContext ini fresh).1 = ⟨fresh, true, ""⟩
      ∧ SDict.get? (s.createContext ini fresh).2.contexts fresh
          = some ⟨fresh, .dict []⟩)
    ∧ (∀ v, ini ≠ [] → parseTokens ini = .ok v →
      (s.createContext ini fresh).1 = ⟨fresh, true, ""⟩
      ∧ SDict.get? (s.createContext ini fresh).2.contexts fresh
          = some ⟨fresh, v⟩) := by
  constructor
  · intro e hne herr
    have hie : ini.isEmpty = false := by
      cases ini with
      | nil => exact absurd rfl hne
      | cons hd tl => rfl
    refine ⟨rfl, ?_⟩
    simp [Server.createContext, ExecutionContext.init, hie, herr,
      SDict.get?_set_self]
  · intro v hne hok
    have hie : ini.isEmpty = false := by
      cases ini with
      | nil => exact absurd rfl hne
      | cons hd tl => rfl
    refine ⟨rfl, ?_⟩
    simp [Server.createContext, ExecutionContext.init, hie, hok,
      SDict.get?_set_self]

theorem claim_C5_amended_witness :
    ((Server.mk [] [] []).createContext [.tkey "x"] "ctx-2").1
        = ⟨"ctx-2", true, ""⟩
    ∧ SDict.get? ((Server.mk [] [] []).createContext
        [.tkey "x"] "ctx-2").2.contexts "ctx-2" = some ⟨"ctx-2", .dict []⟩ :=
  (claim_C5_amended (Server.mk [] [] []) [.tkey "x"] "ctx-2").1
    "Expecting value" (by decide) rfl

/-- C7 counterexample: after destroying a context, InvokeMethod that
references the destroyed id but names an unregistered method answers
MethodNotFound, not a ContextNotFound-class error — method resolution runs
first, so not every operation referencing the destroyed id yields
ContextNotFound. -/
theorem claim_C7_counterexample :
    (demoServerC.destroyContext "ctx-1").1.success = true
    ∧ ((demoServerC.destroyContext "ctx-1").2.invokeMethod
        ⟨"nope", "ctx-1", []⟩).1.error = "Method not found: nope"
    ∧ ¬ ("Context not found".data.isPrefixOf
        (((demoServerC.destroyContext "ctx-1").2.invokeMethod
          ⟨"nope", "ctx-1", []⟩).1.error).data = true) := by
  refine ⟨rfl, rfl, ?_⟩
  have he : ((demoServerC.destroyContext "ctx-1").2.invokeMethod
      ⟨"nope", "ctx-1", []⟩).1.error = "Method not found: nope" := rfl
  rw [he]
  decide

/-- C7 amended: after a successful DestroyContext(id), InspectState on id, a
second DestroyContext(id), and any InvokeMethod referencing id whose method
is registered and whose arguments deserialize, all return success=false with
a ContextNotFound-class error; for InvokeMethod with an unregistered method
or undeserializable arguments the earlier MethodNotFound or InvalidArguments
error takes precedence. -/
theorem claim_C7_amended (s : Server) (cid : String) (c : ExecutionContext)
    (hwf : (s.contexts.map Prod.fst).Nodup) (hcid : cid ≠ "")
    (hc : SDict.get? s.contexts cid = some c) :
    (s.destroyContext cid).1 = ⟨true, ""⟩
    ∧ ((s.destroyContext cid).2.inspectState cid).1
        = ⟨false, [], "Context not found: " ++ cid⟩
    ∧ ((s.destroyContext cid).2.destroyContext cid).1
        = ⟨false, "Context not found: " ++ cid⟩
    ∧ (∀ (req : InvokeRequest) (f : PyCallable) (av : PyVal),
        req.context_id = cid →
        SDict.get? (s.destroyContext cid).2.methods req.method_name = some f →
        parsedArguments req = .ok av →
        ((s.destroyContext cid).2.invokeMethod req).1
          = ⟨false, [], "Context not found: " ++ cid, none⟩) := by
  have hd : s.destroyContext cid
      = (⟨true, ""⟩, { s with contexts := SDict.erase s.contexts cid }) := by
    simp [Server.destroyContext, hc]
  have hge : SDict.get? (SDict.erase s.contexts cid) cid = none :=
    SDict.get?_erase_self _ _ hwf
  refine ⟨by rw [hd], ?_, ?_, ?_⟩
  · rw [hd]
    simp [Server.inspectState, hge]
  · rw [hd]
    simp [Server.destroyContext, hge]
  · intro req f av h1 h2 h3
    rw [hd] at h2 ⊢
    simp [Server.invokeMethod, h2, h3, Server.resolveContext, h1, hcid, hge]

theorem claim_C7_amended_witness :
    ((demoServerC.destroyContext "ctx-1").2.inspectState "ctx-1").1
        = ⟨false, [], "Context not found: ctx-1"⟩
    ∧ ((demoServerC.destroyContext "ctx-1").2.destroyContext "ctx-1").1
        = ⟨false, "Context not found: ctx-1"⟩
    ∧ ((demoServerC.destroyContext "ctx-1").2.invokeMethod
        ⟨"counter_get", "ctx-1", []⟩).1
        = ⟨false, [], "Context not found: ctx-1", none⟩ := by
  have h := claim_C7_amended demoServerC "ctx-1" ⟨"ctx-1", .dict []⟩
    (by decide) (by decide) rfl
  exact ⟨h.2.1, h.2.2.1,
    h.2.2.2 ⟨"counter_get", "ctx-1", []⟩ counter_get_impl (.dict []) rfl rfl rfl⟩

/-- The request invoking counter_increment against a session. -/
def counterReq (cid : String) : InvokeRequest := ⟨"counter_increment", cid, []⟩

/-- N sequential invocations of the same request, collecting the responses. -/
def invokeN (s : Server) (req : InvokeRequest) : Nat → List InvokeMethodResponse × Server
  | 0 => ([], s)
  | n + 1 =>
    let r := s.invokeMethod req
    let rest := invokeN r.2 req n
    (r.1 :: rest.1, rest.2)

/-- The successful responses a counter starting at n produces. -/
def counterOkResps (n : Int) : Nat → List InvokeMethodResponse
  | 0 => []
  | k + 1 =>
    ⟨true, [.tnum (n + 1)], "", some ⟨0, 0, "python"⟩⟩ :: counterOkResps (n + 1) k

theorem counterOkResps_eq_map (N : Nat) : ∀ n : Int,
    counterOkResps n N = (List.range N).map
      (fun k => ⟨true, [.tnum (n + k + 1)], "", some ⟨0, 0, "python"⟩⟩) := by
  induction N with
  | zero => intro n; simp [counterOkResps]
  | succ N ih =>
    intro n
    rw [List.range_succ_eq_map]
    simp only [counterOkResps, ih (n + 1), List.map_cons, List.map_map]
    congr 1
    · simp
    · apply List.map_congr_left
      intro k _
      simp only [Function.comp_apply]
      congr 2
      push_cast
      ring_nf

/-- The context after counter_increment bumped a counter reading n. -/
def bumpCtx (c : ExecutionContext) (kvs : List (String × PyVal)) (n : Int) : ExecutionContext :=
  { c with state := .dict (SDict.set kvs "counter" (.num (n + 1))) }

theorem counter_step (s : Server) (cid : String) (c : ExecutionContext)
    (kvs : List (String × PyVal)) (n : Int) (md : Metadata)
    (hf : SDict.get? s.methods "counter_increment" = some counter_increment_impl)
    (hmd : SDict.get? s.method_metadata "counter_increment" = some md)
    (hst : md.is_stateful = true)
    (hcid : cid ≠ "")
    (hc : SDict.get? s.contexts cid = some c)
    (hstate : c.state = .dict kvs)
    (hcnt : (SDict.get? kvs "counter").getD (.num 0) = .num n) :
    s.invokeMethod (counterReq cid)
      = (⟨true, [.tnum (n + 1)], "", some ⟨0, 0, "python"⟩⟩,
        { s with contexts := SDict.set s.contexts cid (bumpCtx c kvs n) }) := by
  have hcall : counter_increment_impl (some c) []
      = (.ok (.num (n + 1)), some (bumpCtx c kvs n)) := by
    simp [counter_increment_impl, hstate, hcnt, pyAdd,
      ExecutionContext.update_state, bumpCtx]
  simp [Server.invokeMethod, counterReq, hf, parsedArguments, asKwargs,
    Server.resolveContext, hcid, hc, Server.callTarget, hmd, hst,
    Server.finishCall, hcall, serializePy]

theorem counter_invokeN (cid : String) (md : Metadata)
    (hst : md.is_stateful = true) (hcid : cid ≠ "") (N : Nat) :
    ∀ (s : Server) (c : ExecutionContext) (kvs : List (String × PyVal)) (n : Int),
      SDict.get? s.methods "counter_increment" = some counter_increment_impl →
      SDict.get? s.method_metadata "counter_increment" = some md →
      SDict.get? s.contexts cid = some c →
      c.state = .dict kvs →
      (SDict.get? kvs "counter").getD (.num 0) = .num n →
      (invokeN s (counterReq cid) N).1 = counterOkResps n N
      ∧ ∀ b, b ≠ cid →
          SDict.get? (invokeN s (counterReq cid) N).2.contexts b
            = SDict.get? s.contexts b := by
  induction N with
  | zero =>
    intro s c kvs n hf hmd hc hstate hcnt
    simp [invokeN, counterOkResps]
  | succ N ih =>
    intro s c kvs n hf hmd hc hstate hcnt
    have hstep := counter_step s cid c kvs n md hf hmd hst hcid hc hstate hcnt
    have hrec := ih
      { s with contexts := SDict.set s.contexts cid (bumpCtx c kvs n) }
      (bumpCtx c kvs n)
      (SDict.set kvs "counter" (.num (n + 1))) (n + 1)
      hf hmd (SDict.get?_set_self _ _ _) rfl
      (by simp [SDict.get?_set_self])
    constructor
    · simp only [invokeN, hstep, counterOkResps]
      exact congrArg _ hrec.1
    · intro b hb
      simp only [invokeN, hstep]
      rw [hrec.2 b hb]
      exact SDict.get?_set_ne _ _ _ _ hb

/-- C6: against a session holding a counter reading n (0 when absent, as in a
freshly created context), N sequential invocations of the stateful
counter_increment method return the strictly increasing successful values
n+1 .. n+N — 1..N for a fresh session — and the whole run leaves the entry
of every other session id in the store exactly as it was: no two sessions
observe each other's counter progress. -/
theorem claim_C6 (s : Server) (cid : String) (c : ExecutionContext)
    (kvs : List (String × PyVal)) (n : Int) (N : Nat) (md : Metadata)
    (hf : SDict.get? s.methods "counter_increment" = some counter_increment_impl)
    (hmd : SDict.get? s.method_metadata "counter_increment" = some md)
    (hst : md.is_stateful = true)
    (hcid : cid ≠ "")
    (hc : SDict.get? s.contexts cid = some c)
    (hstate : c.state = .dict kvs)
    (hcnt : (SDict.get? kvs "counter").getD (.num 0) = .num n) :
    (invokeN s (counterReq cid) N).1
      = (List.range N).map
          (fun k => ⟨true, [.tnum (n + k + 1)], "", some ⟨0, 0, "python"⟩⟩)
    ∧ ∀ b, b ≠ cid →
        SDict.get? (invokeN s (counterReq cid) N).2.contexts b
          = SDict.get? s.contexts b := by
  have h := counter_invokeN cid md hst hcid N s c kvs n hf hmd hc hstate hcnt
  exact ⟨by rw [h.1, counterOkResps_eq_map], h.2⟩

theorem claim_C6_witness :
    (invokeN demoServerC (counterReq "ctx-1") 3).1
      = (List.range 3).map (fun k =>
          ⟨true, [.tnum ((0 : Int) + k + 1)], "", some ⟨0, 0, "python"⟩⟩)
    ∧ SDict.get? (invokeN demoServerC (counterReq "ctx-1") 3).2.contexts "other"
        = SDict.get? demoServerC.contexts "other" := by
  have h := claim_C6 demoServerC "ctx-1" ⟨"ctx-1", .dict []⟩ [] 0 3
    ⟨"Increment a counter (stateful)", true, [], "int"⟩
    rfl rfl rfl (by decide) rfl rfl rfl
  exact ⟨h.1, h.2 "other" (by decide)⟩

end TranspileAI
